import Mathlib

/-
Verification development for the split-audio-file-into-tracks repository.

The repository holds two Python scripts:
  * src/__main__.py      — split a .wav file into tracks separated by silences;
  * src/trim_silence.py  — trim leading and trailing silence from a .wav file.

Shallow embedding conventions:
  * Python floats are modelled as exact rationals (ℚ); the scripts only do
    additions, subtractions, comparisons, max/min and one truncating
    conversion to int, all of which the embedding reproduces over ℚ.
  * Python's int(x) truncates toward zero; it is modelled by rat_trunc,
    truncated division of the numerator by the denominator.
  * The external decoder (ffmpeg) is an opaque collaborator: a run of it is a
    value carrying its exit status and the tokens the scripts extract from its
    diagnostic stream.  Both scripts read only the captured text and never
    consult the exit status; the embedding makes that visible by functions
    that ignore the exitCode field.
  * Console output is modelled as a list of printed lines; invocations of the
    external editor (sox) are modelled as command values; exit(1) paths are
    modelled with Except.error carrying the printed message.
-/

/-- Embedding of Python's truncation toward zero, int(q), for a rational. -/
def rat_trunc (q : ℚ) : ℤ :=
  q.num.tdiv q.den

/-- Embedding of math.copysign(1, v): 1 with the sign of v (ℚ has no negative
zero, so the sign of 0 is positive, as for the float +0.0). -/
def copysignOne (v : ℚ) : ℚ :=
  if v < 0 then -1 else 1

/-- Embedding of round_away_from_zero (src/__main__.py lines 52-53 and
src/trim_silence.py lines 56-58): int(f + 0.5 * copysign(1, f)). -/
def round_away_from_zero (v : ℚ) : ℤ :=
  rat_trunc (v + 1/2 * copysignOne v)

/-- Two-digit zero padding, the behaviour of Python's "%.02d" and "{n:02}"
formats on a non-negative integer. -/
def pad2 (n : ℕ) : String :=
  if n < 10 then "0" ++ toString n else toString n

/-- Embedding of format_seconds from src/trim_silence.py lines 61-64:
minutes = seconds // 60 (floor division), then "{minutes:02}:{seconds % 60:02}". -/
def format_seconds (seconds : ℕ) : String :=
  pad2 (seconds / 60) ++ ":" ++ pad2 (seconds % 60)

/-- Embedding of format_seconds from src/__main__.py lines 56-58:
minutes = seconds / 60 (true division, a float), then "%.02d" applies int()
truncation to it.  For the script's non-negative inputs %.02d zero-pads. -/
def format_seconds_main (seconds : ℕ) : String :=
  pad2 (rat_trunc ((seconds : ℚ) / 60)).toNat ++ ":" ++ pad2 (seconds % 60)

/-- One run of the decoder pipeline of src/__main__.py lines 36-49
(ffmpeg | grep silence_end | awk).  exitCode is ffmpeg's exit status;
silenceEndTokens are the numeric fields awk printed, one per matched
silence_end line, already read as numbers. -/
structure DecoderRun where
  exitCode : ℤ
  silenceEndTokens : List ℚ
deriving DecidableEq

/-- Embedding of fetch_silence_ends (src/__main__.py lines 36-49): the script
parses every non-empty token of the captured pipeline output and returns the
list.  It never consults the process exit status, so the embedding does not
read exitCode. -/
def fetch_silence_ends (run : DecoderRun) : List ℚ :=
  run.silenceEndTokens

/-- Loop of print_expected_tracks (src/__main__.py lines 61-66) stripped to
the segment boundaries it traverses: old_silence_end starts at 0 and each
iteration emits the segment (old_silence_end, silence_end). -/
def plan_segments_from (old : ℚ) : List ℚ → List (ℚ × ℚ)
  | [] => []
  | t :: ts => (old, t) :: plan_segments_from t ts

/-- Track-split plan: the segments [t_{k-1}, t_k) traversed by
print_expected_tracks and write_tracks, with t_0 = 0. -/
def plan_segments (silence_ends : List ℚ) : List (ℚ × ℚ) :=
  plan_segments_from 0 silence_ends

/-- Loop of print_expected_tracks (src/__main__.py lines 61-66): for each
silence end, print '%.02d.wav' % number, a tab, and the formatted, rounded
track duration; then advance old_silence_end. -/
def print_expected_tracks_from (old : ℚ) (number : ℕ) : List ℚ → List String
  | [] => []
  | t :: ts =>
      (pad2 number ++ ".wav" ++ " \t " ++
        format_seconds_main (round_away_from_zero (t - old)).toNat)
        :: print_expected_tracks_from t (number + 1) ts

/-- Embedding of print_expected_tracks (src/__main__.py lines 61-66). -/
def print_expected_tracks (silence_ends : List ℚ) : List String :=
  print_expected_tracks_from 0 1 silence_ends

/-- One invocation of the editor built by write_tracks:
sox file 'NN.wav' trim start [=stop].  stop = none means the '=…' end bound
is omitted and the editor trims to end-of-file. -/
structure SoxCmd where
  track : ℕ
  start : ℚ
  stop : Option ℚ
deriving DecidableEq

/-- Loop of write_tracks (src/__main__.py lines 69-83): each iteration first
subtracts the offset from silence_end, appends '=…' only when the track is
not the last, and advances old_silence_end to the offset-adjusted value. -/
def write_tracks_from (n : ℕ) (old offset : ℚ) (number : ℕ) :
    List ℚ → List SoxCmd
  | [] => []
  | t :: ts =>
      let t' := t - offset
      { track := number, start := old,
        stop := if number < n then some t' else none }
        :: write_tracks_from n t' offset (number + 1) ts

/-- Embedding of write_tracks (src/__main__.py lines 69-83) as the list of
editor invocations it performs. -/
def write_tracks (offset : ℚ) (silence_ends : List ℚ) : List SoxCmd :=
  write_tracks_from silence_ends.length 0 offset 1 silence_ends

/-- The 'Writing NN.wav' lines printed by write_tracks. -/
def write_tracks_messages (offset : ℚ) (silence_ends : List ℚ) : List String :=
  (write_tracks offset silence_ends).map fun c => "Writing " ++ pad2 c.track ++ ".wav"

/-- Observable outcome of one run of src/__main__.py after argument
validation: the printed lines and the editor invocations. -/
structure TrackSplitOutcome where
  printed : List String
  soxCalls : List SoxCmd
deriving DecidableEq

/-- Embedding of the main part of src/__main__.py (lines 101-104): fetch the
silence ends, print the expected tracks, and write the tracks only when
--execute was given.  There is no error path here: the script reaches the end
whatever the decoder run produced. -/
def trackSplitMain (run : DecoderRun) (offset : ℚ) (execute : Bool) :
    TrackSplitOutcome :=
  let silence_ends := fetch_silence_ends run
  { printed := print_expected_tracks silence_ends ++
      (if execute then write_tracks_messages offset silence_ends else []),
    soxCalls := if execute then write_tracks offset silence_ends else [] }

/-- One line of ffmpeg's diagnostic stream as seen by the regular expressions
of detect_trim_points (src/trim_silence.py lines 91-104): a Duration
declaration with its three matched groups, a silence_start or silence_end
timestamp (the regexes match only non-negative decimal literals), or any
other line. -/
inductive FfmpegLine where
  | durationDecl (h m : ℕ) (s : ℚ)
  | silenceStartLine (t : ℚ)
  | silenceEndLine (t : ℚ)
  | other
deriving DecidableEq

/-- Whether a line is a parseable Duration declaration. -/
def FfmpegLine.isDurationDecl : FfmpegLine → Bool
  | durationDecl _ _ _ => true
  | _ => false

/-- The silence_start timestamp a line contributes, if any. -/
def lineSilenceStart : FfmpegLine → Option ℚ
  | .silenceStartLine t => some t
  | _ => none

/-- The silence_end timestamp a line contributes, if any. -/
def lineSilenceEnd : FfmpegLine → Option ℚ
  | .silenceEndLine t => some t
  | _ => none

/-- The silence_starts list built by the scan of detect_trim_points
(src/trim_silence.py lines 91-104), in scan order. -/
def parsedSilenceStarts (lines : List FfmpegLine) : List ℚ :=
  lines.filterMap lineSilenceStart

/-- The silence_ends list built by the scan of detect_trim_points. -/
def parsedSilenceEnds (lines : List FfmpegLine) : List ℚ :=
  lines.filterMap lineSilenceEnd

/-- The duration variable of detect_trim_points: starts at 0.0 and is
overwritten by h*3600 + m*60 + s at each parseable Duration line, so the last
such line wins and it stays 0.0 when none exists. -/
def parsedDuration (lines : List FfmpegLine) : ℚ :=
  lines.foldl
    (fun d l => match l with
      | .durationDecl h m s => (h : ℚ) * 3600 + (m : ℚ) * 60 + s
      | _ => d)
    0

/-- One run of the decoder invoked by detect_trim_points (src/trim_silence.py
lines 80-85): subprocess.run captures stderr and returns; exitCode is the
process returncode, which the script never reads. -/
structure TrimRun where
  exitCode : ℤ
  stderrLines : List FfmpegLine
deriving DecidableEq

/-- Selection step of detect_trim_points (src/trim_silence.py lines 106-108):
start_time = silence_ends[0] if silence_ends else 0.0,
end_time = silence_starts[-1] if silence_starts else duration. -/
def select_trim_points (silence_starts silence_ends : List ℚ) (duration : ℚ) :
    ℚ × ℚ :=
  (silence_ends.head?.getD 0, silence_starts.getLast?.getD duration)

/-- Embedding of detect_trim_points (src/trim_silence.py lines 67-109):
returns (start_time, end_time, duration).  Only the captured stderr text is
consulted, never the exit status. -/
def detect_trim_points (run : TrimRun) : ℚ × ℚ × ℚ :=
  let p := select_trim_points (parsedSilenceStarts run.stderrLines)
    (parsedSilenceEnds run.stderrLines) (parsedDuration run.stderrLines)
  (p.1, p.2, parsedDuration run.stderrLines)

/-- Clamping step of the main part of src/trim_silence.py (lines 153-154):
start = max(0.0, start - offset); end = min(duration, end + offset). -/
def clamp_trim_range (start_time end_time duration offset : ℚ) : ℚ × ℚ :=
  (max 0 (start_time - offset), min duration (end_time + offset))

/-- The (start, end) pair the main part of src/trim_silence.py computes from
one decoder run (lines 152-154). -/
def trimRange (run : TrimRun) (offset : ℚ) : ℚ × ℚ :=
  let r := detect_trim_points run
  clamp_trim_range r.1 r.2.1 r.2.2 offset

/-- Observable outcome of a successful run of src/trim_silence.py: the
printed lines, the editor trim invocation (start, length passed to sox trim)
when --execute was given, and whether the normalization pass ran. -/
structure TrimOutcome where
  printed : List String
  trimCmd : Option (ℚ × ℚ)
  normalizeRun : Bool
deriving DecidableEq

/-- Embedding of the main part of src/trim_silence.py (lines 152-185) after
argument validation: compute the clamped trim range, exit(1) with the printed
message when end <= start (before any print or editor call), otherwise print
the two duration lines and either run the editor (and optionally the
normalizer) or print the preview notes. -/
def trimMain (run : TrimRun) (offset : ℚ) (execute normalize : Bool) :
    Except String TrimOutcome :=
  let r := trimRange run offset
  if r.2 ≤ r.1 then
    Except.error "Trimmed duration would be 0 or negative. Exiting."
  else
    let duration := (detect_trim_points run).2.2
    let trimmed_duration := round_away_from_zero (r.2 - r.1)
    let original_duration := round_away_from_zero duration
    Except.ok
      { printed :=
          [ "Original duration: " ++ toString original_duration ++
              " seconds (" ++ format_seconds original_duration.toNat ++ ")",
            "Expected trimmed duration: " ++ toString trimmed_duration ++
              " seconds (" ++ format_seconds trimmed_duration.toNat ++ ")" ] ++
          (if execute then [] else
            ["Preview only — no files were written."] ++
              (if normalize then
                ["Note: --normalize has no effect without --execute."]
              else [])),
        trimCmd := if execute then some (r.1, r.2 - r.1) else none,
        normalizeRun := execute && normalize }

/- Helper lemmas about the numeric building blocks. -/

lemma copysignOne_of_neg {v : ℚ} (h : v < 0) : copysignOne v = -1 :=
  if_pos h

lemma copysignOne_of_nonneg {v : ℚ} (h : 0 ≤ v) : copysignOne v = 1 :=
  if_neg (not_lt.mpr h)

lemma rat_trunc_eq_floor {q : ℚ} (hq : 0 ≤ q) : rat_trunc q = ⌊q⌋ := by
  rw [rat_trunc, Rat.floor_def]
  exact Int.tdiv_eq_ediv (Rat.num_nonneg.mpr hq) (Int.natCast_nonneg _)

lemma rat_trunc_neg (q : ℚ) : rat_trunc (-q) = -rat_trunc q := by
  simp [rat_trunc, Rat.neg_num, Rat.den_neg_eq_den, Int.neg_tdiv]

lemma rat_trunc_eq_ceil {q : ℚ} (hq : q ≤ 0) : rat_trunc q = ⌈q⌉ := by
  have h0 : (0 : ℚ) ≤ -q := by linarith
  have h1 : rat_trunc (-q) = ⌊-q⌋ := rat_trunc_eq_floor h0
  rw [rat_trunc_neg] at h1
  rw [Int.floor_neg] at h1
  omega

lemma round_away_from_zero_of_nonneg (v : ℚ) (h : 0 ≤ v) :
    round_away_from_zero v = ⌊v + 1/2⌋ := by
  rw [round_away_from_zero, copysignOne_of_nonneg h]
  rw [rat_trunc_eq_floor (by linarith)]
  norm_num

lemma round_away_from_zero_of_neg (v : ℚ) (h : v < 0) :
    round_away_from_zero v = ⌈v - 1/2⌉ := by
  rw [round_away_from_zero, copysignOne_of_neg h]
  rw [(by ring : v + 1/2 * (-1) = v - 1/2)]
  exact rat_trunc_eq_ceil (by linarith)

lemma rat_trunc_natCast_div (s : ℕ) :
    rat_trunc ((s : ℚ) / 60) = ((s / 60 : ℕ) : ℤ) := by
  rw [rat_trunc_eq_floor (by positivity)]
  rw [(by norm_num : (60 : ℚ) = ((60 : ℕ) : ℚ))]
  rw [Rat.floor_natCast_div_natCast]
  exact_mod_cast rfl

lemma rat_trunc_natCast_div_toNat (s : ℕ) :
    (rat_trunc ((s : ℚ) / 60)).toNat = s / 60 := by
  rw [rat_trunc_natCast_div]
  omega

lemma format_seconds_main_eq (s : ℕ) :
    format_seconds_main s = format_seconds s := by
  rw [format_seconds_main, format_seconds, rat_trunc_natCast_div_toNat]

/- Helper lemmas about the track-split planning loops. -/

lemma plan_segments_from_length (old : ℚ) (ts : List ℚ) :
    (plan_segments_from old ts).length = ts.length := by
  induction ts generalizing old with
  | nil => rfl
  | cons t ts ih => simp [plan_segments_from, ih]

lemma plan_segments_from_getElem (ts : List ℚ) :
    ∀ (old : ℚ) (i : ℕ), i < ts.length →
      ∃ a b, (old :: ts)[i]? = some a ∧ ts[i]? = some b ∧
        (plan_segments_from old ts)[i]? = some (a, b) := by
  induction ts with
  | nil =>
    intro old i h
    simp at h
  | cons t ts ih =>
    intro old i h
    cases i with
    | zero => exact ⟨old, t, by simp, by simp, by simp [plan_segments_from]⟩
    | succ j =>
      have hj : j < ts.length := by simpa using h
      obtain ⟨a, b, h1, h2, h3⟩ := ih t j hj
      refine ⟨a, b, by simpa using h1, by simpa using h2, ?_⟩
      simpa [plan_segments_from] using h3

lemma plan_segments_from_sum (ts : List ℚ) :
    ∀ old : ℚ, ((plan_segments_from old ts).map (fun p => p.2 - p.1)).sum
      = ts.getLast?.getD old - old := by
  induction ts with
  | nil =>
    intro old
    simp [plan_segments_from]
  | cons t ts ih =>
    intro old
    simp only [plan_segments_from, List.map_cons, List.sum_cons, ih t]
    cases ts with
    | nil => simp
    | cons u us =>
      obtain ⟨x, hx⟩ : ∃ x, (u :: us).getLast? = some x :=
        ⟨_, List.getLast?_eq_getLast (u :: us) (by simp)⟩
      rw [List.getLast?_cons_cons, hx]
      simp only [Option.getD_some]
      ring

lemma write_tracks_from_length (ts : List ℚ) :
    ∀ (n num : ℕ) (old off : ℚ),
      (write_tracks_from n old off num ts).length = ts.length := by
  induction ts with
  | nil => intro n num old off; rfl
  | cons t ts ih => intro n num old off; simp [write_tracks_from, ih]

lemma write_tracks_from_getElem (ts : List ℚ) :
    ∀ (n num : ℕ) (old off : ℚ), num + ts.length = n + 1 →
      ∀ i, i < ts.length →
        ∃ c t, (write_tracks_from n old off num ts)[i]? = some c ∧
          ts[i]? = some t ∧
          c.stop = if i + 1 < ts.length then some (t - off) else none := by
  induction ts with
  | nil =>
    intro n num old off hinv i h
    simp at h
  | cons t ts ih =>
    intro n num old off hinv i h
    have hlen : (t :: ts).length = ts.length + 1 := by simp
    cases i with
    | zero =>
      refine ⟨⟨num, old, if num < n then some (t - off) else none⟩, t,
        by simp [write_tracks_from], by simp, ?_⟩
      by_cases hn : num < n
      · rw [if_pos hn, if_pos (by omega)]
      · rw [if_neg hn, if_neg (by omega)]
    | succ j =>
      have hj : j < ts.length := by simpa using h
      obtain ⟨c, t', h1, h2, h3⟩ := ih n (num + 1) (t - off) off (by omega) j hj
      refine ⟨c, t', by simpa [write_tracks_from] using h1, by simpa using h2, ?_⟩
      rw [h3]
      by_cases hc : j + 1 < ts.length
      · rw [if_pos hc, if_pos (by omega)]
      · rw [if_neg hc, if_neg (by omega)]

/-- C1: for every strictly increasing list of non-negative silence-end
timestamps t1 < ... < tn, the track-split plan has exactly n segments,
segment k covers [t_{k-1}, t_k) with t_0 = 0 (the k-th planned segment pairs
the k-th element of 0 :: ts with the k-th element of ts), and the segment
durations sum to t_n, the last timestamp. -/
theorem track_split_plan_spec (ts : List ℚ) (hne : ts ≠ [])
    (hinc : List.Chain' (fun a b => a < b) ts) (hnn : ∀ t ∈ ts, 0 ≤ t) :
    (plan_segments ts).length = ts.length ∧
    (∀ i, i < ts.length → ∃ a b, ((0 : ℚ) :: ts)[i]? = some a ∧
      ts[i]? = some b ∧ (plan_segments ts)[i]? = some (a, b)) ∧
    ∃ tn, ts.getLast? = some tn ∧
      ((plan_segments ts).map (fun p => p.2 - p.1)).sum = tn := by
  refine ⟨plan_segments_from_length 0 ts,
    fun i hi => plan_segments_from_getElem ts 0 i hi,
    ts.getLast hne, List.getLast?_eq_getLast ts hne, ?_⟩
  rw [plan_segments, plan_segments_from_sum ts 0,
    List.getLast?_eq_getLast ts hne]
  simp

/-- C1 witness: the plan property instantiated at the timestamps [5, 12]. -/
theorem track_split_plan_spec_witness :
    (plan_segments [5, 12]).length = ([5, 12] : List ℚ).length ∧
    (∀ i, i < ([5, 12] : List ℚ).length →
      ∃ a b, ((0 : ℚ) :: [5, 12])[i]? = some a ∧
        ([5, 12] : List ℚ)[i]? = some b ∧
        (plan_segments [5, 12])[i]? = some (a, b)) ∧
    ∃ tn, ([5, 12] : List ℚ).getLast? = some tn ∧
      ((plan_segments [5, 12]).map (fun p => p.2 - p.1)).sum = tn :=
  track_split_plan_spec [5, 12] (by simp)
    (by simp [List.chain'_cons]; norm_num)
    (by intro t ht; simp at ht; rcases ht with h | h <;> subst h <;> norm_num)

/-- C7: in track-split execution, for every non-empty list of silence ends the
last editor invocation carries no end bound (only the start offset), while
the invocation for every earlier segment k carries the absolute end timestamp
t_k - offset. -/
theorem write_tracks_last_open_ended (off : ℚ) (ts : List ℚ) (hne : ts ≠ []) :
    (∃ c, (write_tracks off ts).getLast? = some c ∧ c.stop = none) ∧
    (∀ i, i + 1 < ts.length →
      ∃ c t, (write_tracks off ts)[i]? = some c ∧ ts[i]? = some t ∧
        c.stop = some (t - off)) := by
  have hlen := write_tracks_from_length ts ts.length 1 0 off
  have hpos : 0 < ts.length := List.length_pos.mpr hne
  constructor
  · obtain ⟨c, t, h1, h2, h3⟩ := write_tracks_from_getElem ts ts.length 1 0 off
      (by omega) (ts.length - 1) (by omega)
    refine ⟨c, ?_, ?_⟩
    · rw [write_tracks, List.getLast?_eq_getElem?, hlen]
      exact h1
    · rw [h3, if_neg (by omega)]
  · intro i hi
    obtain ⟨c, t, h1, h2, h3⟩ := write_tracks_from_getElem ts ts.length 1 0 off
      (by omega) i (by omega)
    exact ⟨c, t, h1, h2, by rw [h3, if_pos hi]⟩

/-- C7 witness: with silence ends [5, 12] and offset 2/5, the last invocation
has no end bound and the first carries the end timestamp 5 - 2/5. -/
theorem write_tracks_last_open_ended_witness :
    (∃ c, (write_tracks (2/5) [5, 12]).getLast? = some c ∧ c.stop = none) ∧
    (∀ i, i + 1 < ([5, 12] : List ℚ).length →
      ∃ c t, (write_tracks (2/5) [5, 12])[i]? = some c ∧
        ([5, 12] : List ℚ)[i]? = some t ∧ c.stop = some (t - 2/5)) :=
  write_tracks_last_open_ended (2/5) [5, 12] (by simp)

/-- C6 counterexample: with zero detected silence-end events the program
prints nothing at all (and runs no editor command), so the empty result is
not reported to the user in any way. -/
theorem track_split_empty_not_reported :
    (trackSplitMain ⟨1, []⟩ (2/5) true).printed = [] ∧
    (trackSplitMain ⟨1, []⟩ (2/5) true).soxCalls = [] :=
  ⟨rfl, rfl⟩

/-- C6 amended: in track-split mode, for every run with zero silence-end
events the plan is empty, no tracks are produced and the program does not
crash, but nothing is printed: the empty result is not explicitly reported. -/
theorem track_split_empty_plan (run : DecoderRun) (offset : ℚ) (execute : Bool)
    (h : fetch_silence_ends run = []) :
    trackSplitMain run offset execute = { printed := [], soxCalls := [] } := by
  simp [trackSplitMain, h, print_expected_tracks, print_expected_tracks_from,
    write_tracks, write_tracks_messages, write_tracks_from]

/-- C6 witness: the empty-plan behaviour at a concrete empty decoder run. -/
theorem track_split_empty_plan_witness :
    trackSplitMain ⟨0, []⟩ (2/5) false = { printed := [], soxCalls := [] } :=
  track_split_empty_plan ⟨0, []⟩ (2/5) false rfl

/-- C5: neither script inspects the exit status of the external decoder
process: every outcome is a function of the captured text alone, so a decoder
that fails with a non-zero exit status after producing no events yields the
same silent, error-free run as a successful decoder that found no events.
This documents the code-side gap behind the claim that external process
failures must surface as visible errors. -/
theorem external_process_failure_ignored :
    (∀ (c c' : ℤ) (toks : List ℚ) (offset : ℚ) (execute : Bool),
      trackSplitMain ⟨c, toks⟩ offset execute
        = trackSplitMain ⟨c', toks⟩ offset execute) ∧
    (∀ (c c' : ℤ) (lines : List FfmpegLine) (offset : ℚ)
      (execute normalize : Bool),
      trimMain ⟨c, lines⟩ offset execute normalize
        = trimMain ⟨c', lines⟩ offset execute normalize) ∧
    trackSplitMain ⟨1, []⟩ (2/5) true = { printed := [], soxCalls := [] } :=
  ⟨fun _ _ _ _ _ => rfl, fun _ _ _ _ _ _ => rfl, rfl⟩

/-- C2: the trim range computed from the silence-start list, the silence-end
list, the detected duration and a non-negative offset satisfies
start = max(0, first_silence_end - offset) and
end = min(duration, last_silence_start + offset); with no silence-end event
start = 0, and with no silence-start event end = duration. -/
theorem trim_range_formula (silence_starts silence_ends : List ℚ)
    (duration offset : ℚ) (hoff : 0 ≤ offset) :
    (∀ t ts, silence_ends = t :: ts →
      (clamp_trim_range
        (select_trim_points silence_starts silence_ends duration).1
        (select_trim_points silence_starts silence_ends duration).2
        duration offset).1 = max 0 (t - offset)) ∧
    (∀ t, silence_starts.getLast? = some t →
      (clamp_trim_range
        (select_trim_points silence_starts silence_ends duration).1
        (select_trim_points silence_starts silence_ends duration).2
        duration offset).2 = min duration (t + offset)) ∧
    (silence_ends = [] →
      (clamp_trim_range
        (select_trim_points silence_starts silence_ends duration).1
        (select_trim_points silence_starts silence_ends duration).2
        duration offset).1 = 0) ∧
    (silence_starts = [] →
      (clamp_trim_range
        (select_trim_points silence_starts silence_ends duration).1
        (select_trim_points silence_starts silence_ends duration).2
        duration offset).2 = duration) := by
  refine ⟨?_, ?_, ?_, ?_⟩
  · intro t ts h
    subst h
    simp [clamp_trim_range, select_trim_points]
  · intro t h
    simp [clamp_trim_range, select_trim_points, h]
  · intro h
    subst h
    simp only [clamp_trim_range, select_trim_points, List.head?_nil,
      Option.getD_none, zero_sub]
    exact max_eq_left (by linarith)
  · intro h
    subst h
    simp only [clamp_trim_range, select_trim_points, List.getLast?_nil,
      Option.getD_none]
    exact min_eq_left (by linarith)

/-- C2 witness: the formulas instantiated at silence_starts = [10],
silence_ends = [2], duration = 12, offset = 2/5. -/
theorem trim_range_formula_witness :
    (∀ t ts, ([2] : List ℚ) = t :: ts →
      (clamp_trim_range
        (select_trim_points [10] [2] 12).1
        (select_trim_points [10] [2] 12).2 12 (2/5)).1
        = max 0 (t - 2/5)) ∧
    (∀ t, ([10] : List ℚ).getLast? = some t →
      (clamp_trim_range
        (select_trim_points [10] [2] 12).1
        (select_trim_points [10] [2] 12).2 12 (2/5)).2
        = min 12 (t + 2/5)) ∧
    (([2] : List ℚ) = [] →
      (clamp_trim_range
        (select_trim_points [10] [2] 12).1
        (select_trim_points [10] [2] 12).2 12 (2/5)).1 = 0) ∧
    (([10] : List ℚ) = [] →
      (clamp_trim_range
        (select_trim_points [10] [2] 12).1
        (select_trim_points [10] [2] 12).2 12 (2/5)).2 = 12) :=
  trim_range_formula [10] [2] 12 (2/5) (by norm_num)

/- Helper computation for the concrete trim example: ffmpeg reports
Duration 00:00:12, one silence_end at 2.0 and one silence_start at 10.0. -/

lemma trim_demo_range_eq :
    trimRange ⟨0, [FfmpegLine.durationDecl 0 0 12, FfmpegLine.silenceEndLine 2,
      FfmpegLine.silenceStartLine 10]⟩ (2/5) = (8/5, 52/5) := by
  have hd : parsedDuration [FfmpegLine.durationDecl 0 0 12,
      FfmpegLine.silenceEndLine 2, FfmpegLine.silenceStartLine 10] = 12 := by
    norm_num [parsedDuration]
  simp only [trimRange, detect_trim_points, select_trim_points,
    clamp_trim_range, parsedSilenceStarts, parsedSilenceEnds, hd,
    List.filterMap, lineSilenceStart, lineSilenceEnd]
  norm_num

/-- C3 counterexample: on silence_end = [2.0], silence_start = [10.0],
duration = 12.0, offset = 0.4, the program's trim range is not
(1.6, 9.6): the code adds the offset to the trailing silence start. -/
theorem trim_example_range_not_as_claimed :
    trimRange ⟨0, [FfmpegLine.durationDecl 0 0 12, FfmpegLine.silenceEndLine 2,
      FfmpegLine.silenceStartLine 10]⟩ (2/5) ≠ ((8/5 : ℚ), (48/5 : ℚ)) := by
  rw [trim_demo_range_eq]
  intro h
  rw [Prod.ext_iff] at h
  exact absurd h.2 (by norm_num)

/-- C3 amended: on silence_end = [2.0], silence_start = [10.0],
duration = 12.0, offset = 0.4, the computed trim range is start = 1.6 and
end = 10.4 (= min(12, 10 + 0.4)). -/
theorem trim_example_range :
    trimRange ⟨0, [FfmpegLine.durationDecl 0 0 12, FfmpegLine.silenceEndLine 2,
      FfmpegLine.silenceStartLine 10]⟩ (2/5) = (8/5, 52/5) :=
  trim_demo_range_eq

/- Helper lemma shared by the degenerate-range claims. -/

lemma trimMain_error_of_degenerate (run : TrimRun) (offset : ℚ)
    (execute normalize : Bool)
    (h : (trimRange run offset).2 ≤ (trimRange run offset).1) :
    trimMain run offset execute normalize
      = Except.error "Trimmed duration would be 0 or negative. Exiting." := by
  simp [trimMain, h]

/-- C4: whenever the computed trim range satisfies end <= start, the trim
program fails with the descriptive message and never reaches the editor: no
successful outcome (hence no output file or editor invocation) is possible. -/
theorem trim_degenerate_fails (run : TrimRun) (offset : ℚ)
    (execute normalize : Bool)
    (h : (trimRange run offset).2 ≤ (trimRange run offset).1) :
    trimMain run offset execute normalize
      = Except.error "Trimmed duration would be 0 or negative. Exiting." ∧
    ∀ out : TrimOutcome, trimMain run offset execute normalize
      ≠ Except.ok out := by
  have he := trimMain_error_of_degenerate run offset execute normalize h
  refine ⟨he, fun out hok => ?_⟩
  rw [he] at hok
  exact Except.noConfusion hok

/-- C4 witness: a decoder run with no events and offset 0 yields the
degenerate range (0, 0) and the clean failure. -/
theorem trim_degenerate_fails_witness :
    trimMain ⟨0, []⟩ 0 true true
      = Except.error "Trimmed duration would be 0 or negative. Exiting." ∧
    ∀ out : TrimOutcome, trimMain ⟨0, []⟩ 0 true true ≠ Except.ok out :=
  trim_degenerate_fails ⟨0, []⟩ 0 true true
    (by norm_num [trimRange, detect_trim_points, select_trim_points,
      clamp_trim_range, parsedSilenceStarts, parsedSilenceEnds,
      parsedDuration])

/- Helper lemma: without a parseable Duration line the duration variable
keeps its initial value 0.0. -/

lemma parsedDuration_of_no_durationDecl (lines : List FfmpegLine)
    (h : ∀ l ∈ lines, l.isDurationDecl = false) :
    parsedDuration lines = 0 := by
  suffices hgen : ∀ d : ℚ, lines.foldl
      (fun d l => match l with
        | FfmpegLine.durationDecl h m s => (h : ℚ) * 3600 + (m : ℚ) * 60 + s
        | _ => d) d = d from hgen 0
  induction lines with
  | nil => intro d; rfl
  | cons l ls ih =>
    intro d
    cases l with
    | durationDecl lh lm lsec =>
      exact absurd (h _ (List.mem_cons_self _ _)) (by simp [FfmpegLine.isDurationDecl])
    | silenceStartLine t =>
      exact ih (fun x hx => h x (List.mem_cons_of_mem _ hx)) d
    | silenceEndLine t =>
      exact ih (fun x hx => h x (List.mem_cons_of_mem _ hx)) d
    | other =>
      exact ih (fun x hx => h x (List.mem_cons_of_mem _ hx)) d

/-- C10: in trim mode, when no line of the decoder's diagnostic output is a
parseable Duration declaration (so the detected duration stays 0.0) and the
offset is non-negative, the computed end is
min(0, last_silence_start + offset), it never exceeds the computed start, and
the program always terminates with the degenerate-range error, producing no
output, whatever silence events were detected. -/
theorem trim_no_duration_always_degenerate (run : TrimRun) (offset : ℚ)
    (execute normalize : Bool)
    (hnd : ∀ l ∈ run.stderrLines, l.isDurationDecl = false)
    (hoff : 0 ≤ offset) :
    (trimRange run offset).2
      = min 0 ((parsedSilenceStarts run.stderrLines).getLast?.getD 0 + offset) ∧
    (trimRange run offset).2 ≤ (trimRange run offset).1 ∧
    trimMain run offset execute normalize
      = Except.error "Trimmed duration would be 0 or negative. Exiting." := by
  have hd : parsedDuration run.stderrLines = 0 :=
    parsedDuration_of_no_durationDecl run.stderrLines hnd
  have h1 : (trimRange run offset).1
      = max 0 ((parsedSilenceEnds run.stderrLines).head?.getD 0 - offset) := rfl
  have h2 : (trimRange run offset).2
      = min (parsedDuration run.stderrLines)
          ((parsedSilenceStarts run.stderrLines).getLast?.getD
            (parsedDuration run.stderrLines) + offset) := rfl
  rw [hd] at h2
  have hle : (trimRange run offset).2 ≤ (trimRange run offset).1 := by
    have ha : (trimRange run offset).2 ≤ 0 := by
      rw [h2]
      exact min_le_left _ _
    have hb : 0 ≤ (trimRange run offset).1 := by
      rw [h1]
      exact le_max_left _ _
    linarith
  exact ⟨h2, hle,
    trimMain_error_of_degenerate run offset execute normalize hle⟩

/-- C10 witness: a run whose diagnostic output has silence events but no
Duration line fails with the degenerate-range error. -/
theorem trim_no_duration_always_degenerate_witness :
    (trimRange ⟨1, [FfmpegLine.silenceEndLine 2,
        FfmpegLine.silenceStartLine 10]⟩ (2/5)).2
      = min 0 ((parsedSilenceStarts [FfmpegLine.silenceEndLine 2,
          FfmpegLine.silenceStartLine 10]).getLast?.getD 0 + 2/5) ∧
    (trimRange ⟨1, [FfmpegLine.silenceEndLine 2,
        FfmpegLine.silenceStartLine 10]⟩ (2/5)).2
      ≤ (trimRange ⟨1, [FfmpegLine.silenceEndLine 2,
          FfmpegLine.silenceStartLine 10]⟩ (2/5)).1 ∧
    trimMain ⟨1, [FfmpegLine.silenceEndLine 2,
        FfmpegLine.silenceStartLine 10]⟩ (2/5) true false
      = Except.error "Trimmed duration would be 0 or negative. Exiting." :=
  trim_no_duration_always_degenerate
    ⟨1, [FfmpegLine.silenceEndLine 2, FfmpegLine.silenceStartLine 10]⟩ (2/5)
    true false
    (by intro l hl; simp at hl; rcases hl with h | h <;> subst h <;> rfl)
    (by norm_num)

/-- C8: the round-away-from-zero function satisfies f(2.5) = 3, f(-2.5) = -3,
f(2.4) = 2, f(0.5) = 1 and f(0.0) = 0, and it is computed as
int(v + 0.5 * sign(v)) with truncation toward zero after the addition: for
non-negative v the truncation is the floor of v + 1/2, for negative v it is
the ceiling of v - 1/2. -/
theorem round_away_from_zero_spec :
    round_away_from_zero (5/2) = 3 ∧
    round_away_from_zero (-(5/2)) = -3 ∧
    round_away_from_zero (12/5) = 2 ∧
    round_away_from_zero (1/2) = 1 ∧
    round_away_from_zero 0 = 0 ∧
    (∀ v : ℚ, round_away_from_zero v = rat_trunc (v + 1/2 * copysignOne v)) ∧
    (∀ v : ℚ, 0 ≤ v → round_away_from_zero v = ⌊v + 1/2⌋) ∧
    (∀ v : ℚ, v < 0 → round_away_from_zero v = ⌈v - 1/2⌉) := by
  refine ⟨?_, ?_, ?_, ?_, ?_, fun v => rfl,
    round_away_from_zero_of_nonneg, round_away_from_zero_of_neg⟩
  · rw [round_away_from_zero_of_nonneg _ (by norm_num), Int.floor_eq_iff]
    norm_num
  · rw [round_away_from_zero_of_neg _ (by norm_num), Int.ceil_eq_iff]
    norm_num
  · rw [round_away_from_zero_of_nonneg _ (by norm_num), Int.floor_eq_iff]
    norm_num
  · rw [round_away_from_zero_of_nonneg _ (by norm_num), Int.floor_eq_iff]
    norm_num
  · rw [round_away_from_zero_of_nonneg _ le_rfl, Int.floor_eq_iff]
    norm_num

/-- C8 witness: the truncation characterizations instantiated at concrete
inputs 3/2 and -(3/2). -/
theorem round_away_from_zero_spec_witness :
    round_away_from_zero (3/2) = ⌊(3/2 : ℚ) + 1/2⌋ ∧
    round_away_from_zero (-(3/2)) = ⌈(-(3/2) : ℚ) - 1/2⌉ :=
  ⟨round_away_from_zero_spec.2.2.2.2.2.2.1 (3/2) (by norm_num),
   round_away_from_zero_spec.2.2.2.2.2.2.2 (-(3/2)) (by norm_num)⟩

/-- C9: duration formatting maps a whole number of seconds to an MM:SS string
via division/modulo by 60 with two-digit zero padding and an uncapped minutes
component; format(0) = "00:00", format(65) = "01:05", format(3661) = "61:01",
and the two variants (floor division in src/trim_silence.py, truncated true
division in src/__main__.py) agree on every input. -/
theorem format_seconds_spec :
    format_seconds 0 = "00:00" ∧
    format_seconds 65 = "01:05" ∧
    format_seconds 3661 = "61:01" ∧
    format_seconds_main 0 = "00:00" ∧
    format_seconds_main 65 = "01:05" ∧
    format_seconds_main 3661 = "61:01" ∧
    (∀ s : ℕ, format_seconds s = pad2 (s / 60) ++ ":" ++ pad2 (s % 60)) ∧
    (∀ s : ℕ, format_seconds_main s = format_seconds s) := by
  refine ⟨rfl, rfl, rfl, ?_, ?_, ?_, fun s => rfl, format_seconds_main_eq⟩
  · rw [format_seconds_main_eq]
    rfl
  · rw [format_seconds_main_eq]
    rfl
  · rw [format_seconds_main_eq]
    rfl
